import Mathlib

/-
Verification of the V4L2/libusb capture backend (src/backends/uvc-v4l2.cpp,
namespace rsimpl::uvc): the subdevice/device data model, the enumeration
grouping algorithm of query_devices, the metadata (modalias) parsing in the
subdevice constructor, the buffer-pool lifecycle of start_capture and the
subdevice destructor, the poll dispatcher, the streaming-thread lifecycle,
and the USB control plane (claim_interface).

The embedding is shallow: each C++ function becomes a Lean function over an
explicit model of the kernel/libusb responses (structure KernelModel below);
throwing is modeled by error values, and side effects visible to the caller
(callback invocations, buffer re-enqueues, warnings) are modeled as explicit
event traces.
-/

set_option autoImplicit false

/-- struct buffer { void * start; size_t length; }: one memory-mapped kernel
capture buffer. `start` is the mapped address (abstracted to an integer),
`length` the mapped byte count. -/
structure buffer where
  start : Int
  length : Nat
  deriving DecidableEq, Repr

/-- struct subdevice: the fields the verified operations read or write.
`fd` is the capture file descriptor, `vid`/`pid`/`mi` the USB vendor id,
product id and interface index parsed at construction, `buffers` the mapped
buffer pool. The device-node name, the configuration fields
(width/height/format/fps) and the stored callback closure are elided: no
claim reads them, and callback invocation is modeled by trace events. -/
structure subdevice where
  fd : Int
  vid : Int
  pid : Int
  mi : Int
  buffers : List buffer
  deriving DecidableEq, Repr

/-- A subdevice as produced by enumeration, before any capture started:
only the identifying triple is populated and the buffer pool is empty. -/
def mkSub (v p m : Int) : subdevice :=
  { fd := 0, vid := v, pid := p, mi := m, buffers := [] }

/-- get_vendor_id(device): device.subdevices[0]->get_vid(). A device is
modeled by its ordered subdevice list; the source indexes subdevices[0],
which the grouping loop only does on a non-empty device, so the empty case
is given a dummy value. -/
def get_vendor_id (d : List subdevice) : Int :=
  match d with
  | [] => 0
  | s :: _ => s.vid

/-- get_product_id(device): device.subdevices[0]->get_pid(). -/
def get_product_id (d : List subdevice) : Int :=
  match d with
  | [] => 0
  | s :: _ => s.pid

/-- device::has_mi(int mi): true iff some owned subdevice has this
interface index. -/
def has_mi (d : List subdevice) (mi : Int) : Bool :=
  d.any fun s => s.mi == mi

/-- One iteration of the grouping loop in query_devices: start a new device
when the device list is empty, the subdevice's vid or pid differs from the
current (last) device's, or the last device already contains the interface
index; then append the subdevice to the last device. -/
def group_step (devices : List (List subdevice)) (sub : subdevice) : List (List subdevice) :=
  if devices.isEmpty || sub.vid != get_vendor_id (devices.getLastD [])
      || sub.pid != get_product_id (devices.getLastD [])
      || has_mi (devices.getLastD []) sub.mi then
    devices ++ [[sub]]
  else
    devices.dropLast ++ [devices.getLastD [] ++ [sub]]

/-- The grouping stage of query_devices. Enumeration (the
/sys/class/video4linux directory walk, skipping "." and "..") yields the
subdevice sequence in registry order; it is filesystem I/O and is modeled as
the input list. Grouping folds the sequence into devices exactly as the
source loop does. -/
def query_devices (subs : List subdevice) : List (List subdevice) :=
  subs.foldl group_step []

/-- All subdevices of a device share the first subdevice's vendor id and
product id (the device's identity, per get_vendor_id/get_product_id). -/
def sameIds (d : List subdevice) : Prop :=
  ∀ s ∈ d, s.vid = get_vendor_id d ∧ s.pid = get_product_id d

/-- No two subdevices of a device share a USB interface index. -/
def distinct_mi (d : List subdevice) : Prop :=
  List.Pairwise (fun a b => a.mi ≠ b.mi) d

/-- The device invariant established by grouping: non-empty, uniform
vendor/product id, pairwise-distinct interface indices. -/
def devOk (d : List subdevice) : Prop :=
  d ≠ [] ∧ sameIds d ∧ distinct_mi d

instance (d : List subdevice) : Decidable (sameIds d) := by
  unfold sameIds; infer_instance

instance (d : List subdevice) : Decidable (distinct_mi d) := by
  unfold distinct_mi; infer_instance

instance (d : List subdevice) : Decidable (devOk d) := by
  unfold devOk; infer_instance

/-- Result of the VIDIOC_REQBUFS ioctl: the kernel either grants a buffer
count (writing it into req.count) or the call fails, EINVAL being
distinguished by the source ("does not support memory mapping"). -/
inductive ReqbufsRes where
  | granted (n : Nat)
  | failEinval
  | failOther
  deriving DecidableEq, Repr

/-- Result of the VIDIOC_DQBUF ioctl on one descriptor: a completed buffer
(slot index and bytesused), EAGAIN ("not ready"), or another failure. -/
inductive DqResult where
  | success (idx used : Nat)
  | eagain
  | fail
  deriving DecidableEq, Repr

/-- Result of the select() wait: nonnegative return, EINTR, or another
failure. -/
inductive SelectRes where
  | ok
  | eintr
  | fail
  deriving DecidableEq, Repr

/-- The environment of kernel/driver responses a run of the backend
observes: one field per fallible external call the verified functions
make. xioctl already retries EINTR internally, so EINTR appears only for
select. -/
structure KernelModel where
  /-- select(): readiness wait outcome. -/
  select : SelectRes
  /-- FD_ISSET after select: which descriptors became ready. -/
  ready : Int → Bool
  /-- VIDIOC_DQBUF on a descriptor. -/
  dq : Int → DqResult
  /-- VIDIOC_QBUF of a slot index on a descriptor: true iff it succeeds. -/
  qbuf : Int → Nat → Bool
  /-- VIDIOC_S_FMT succeeds. -/
  sfmtOk : Bool
  /-- VIDIOC_G_PARM succeeds. -/
  gparmOk : Bool
  /-- VIDIOC_S_PARM succeeds. -/
  sparmOk : Bool
  /-- VIDIOC_REQBUFS with a requested count (4 in start_capture, 0 in the
  destructor). -/
  reqbufs : Nat → ReqbufsRes
  /-- VIDIOC_QUERYBUF of a slot: the buffer length, or failure. -/
  querybuf : Nat → Option Nat
  /-- mmap of a slot: the mapped address, or MAP_FAILED. -/
  mmapAt : Nat → Option Int
  /-- VIDIOC_STREAMON succeeds. -/
  streamonOk : Bool
  /-- VIDIOC_STREAMOFF succeeds. -/
  streamoffOk : Bool
  /-- munmap of buffer slot i succeeds. -/
  munmapOk : Nat → Bool
  /-- close(fd) succeeds. -/
  closeOk : Bool

/-- Errors thrown (throw_error / std::runtime_error) by start_capture,
named after the failing step. -/
inductive CapErr where
  | sfmtFail
  | gparmFail
  | sparmFail
  | reqbufsEinval
  | reqbufsOther
  | insufficientBuffers
  | querybufFail
  | mmapFail
  | qbufFail
  | streamonFail
  deriving DecidableEq, Repr

/-- The buffer-mapping loop of start_capture: for each granted slot,
VIDIOC_QUERYBUF then mmap, stopping at the first failure with the buffers
mapped so far. (The source resizes the vector up front, leaving
value-initialized entries past a failure point; those inert placeholder
entries are elided here and the list holds exactly the mapped buffers.) -/
def mapBuffers (K : KernelModel) (n : Nat) : List buffer × Option CapErr :=
  (List.range n).foldl
    (fun st i =>
      match st with
      | (acc, some e) => (acc, some e)
      | (acc, none) =>
        match K.querybuf i with
        | none => (acc, some CapErr.querybufFail)
        | some len =>
          match K.mmapAt i with
          | none => (acc, some CapErr.mmapFail)
          | some addr => (acc ++ [⟨addr, len⟩], none))
    ([], none)

/-- The initial-enqueue loop of start_capture: VIDIOC_QBUF every slot in
order, stopping at the first failure. -/
def enqueueAll (K : KernelModel) (fd : Int) (n : Nat) : Option CapErr :=
  (List.range n).foldl
    (fun st i =>
      match st with
      | some e => some e
      | none => if K.qbuf fd i then none else some CapErr.qbufFail)
    none

/-- subdevice::start_capture(): negotiate format (S_FMT), frame interval
(G_PARM/S_PARM), request a pool of 4 buffers (REQBUFS), fail if fewer than
2 are granted, map each granted buffer (QUERYBUF + mmap), enqueue all
buffers (QBUF), enable streaming (STREAMON). Returns the subdevice with
its resulting buffer pool, plus the error if a step threw. -/
def start_capture (K : KernelModel) (s : subdevice) : subdevice × Option CapErr :=
  if K.sfmtOk = false then (s, some CapErr.sfmtFail)
  else if K.gparmOk = false then (s, some CapErr.gparmFail)
  else if K.sparmOk = false then (s, some CapErr.sparmFail)
  else
    match K.reqbufs 4 with
    | ReqbufsRes.failEinval => (s, some CapErr.reqbufsEinval)
    | ReqbufsRes.failOther => (s, some CapErr.reqbufsOther)
    | ReqbufsRes.granted n =>
      if n < 2 then (s, some CapErr.insufficientBuffers)
      else
        match mapBuffers K n with
        | (bufs, some e) => ({ s with buffers := bufs }, some e)
        | (bufs, none) =>
          match enqueueAll K s.fd n with
          | some e => ({ s with buffers := bufs }, some e)
          | none =>
            if K.streamonOk then ({ s with buffers := bufs }, none)
            else ({ s with buffers := bufs }, some CapErr.streamonFail)

/-- Observable steps of the subdevice destructor: warnings printed by
warn_error and the close(fd) call. -/
inductive DtorEvent where
  | warnStreamoff
  | warnMunmap (i : Nat)
  | closed
  | warnClose
  deriving DecidableEq, Repr

/-- The exception the destructor can throw, from the VIDIOC_REQBUFS(0)
buffer-pool release: EINVAL ("does not support memory mapping") or any
other failure (throw_error). -/
inductive DtorErr where
  | reqbufsEinval
  | reqbufsOther
  deriving DecidableEq, Repr

/-- Outcome of a destructor run: the emitted events in order, and the
exception if one was thrown (cutting the run short). -/
structure DtorOut where
  events : List DtorEvent
  error : Option DtorErr
  deriving DecidableEq, Repr

/-- The munmap loop of the destructor: one warning per buffer slot whose
munmap fails; failures never stop the loop. -/
def munmapEvents (K : KernelModel) (n : Nat) : List DtorEvent :=
  (List.range n).filterMap
    (fun i => if K.munmapOk i then none else some (DtorEvent.warnMunmap i))

/-- subdevice::~subdevice(): VIDIOC_STREAMOFF (warn on failure, including
on a never-started device), munmap every buffer (warn per failure),
VIDIOC_REQBUFS with count 0 to release the pool (THROWS on any failure,
EINVAL or other), then close(fd) (warn on failure). A throw from the
release step skips the close. -/
def destruct (K : KernelModel) (s : subdevice) : DtorOut :=
  let e1 := if K.streamoffOk then [] else [DtorEvent.warnStreamoff]
  let e2 := munmapEvents K s.buffers.length
  match K.reqbufs 0 with
  | ReqbufsRes.granted _ =>
    let e3 := if K.closeOk then [] else [DtorEvent.warnClose]
    ⟨e1 ++ e2 ++ [DtorEvent.closed] ++ e3, none⟩
  | ReqbufsRes.failEinval => ⟨e1 ++ e2, some DtorErr.reqbufsEinval⟩
  | ReqbufsRes.failOther => ⟨e1 ++ e2, some DtorErr.reqbufsOther⟩

/-- Observable steps of one poll-dispatcher round. `callback fd args`
records a synchronous invocation of the subdevice's registered callback
with the argument list the call site passes; `dequeue` a successful
VIDIOC_DQBUF; `requeue` the VIDIOC_QBUF re-enqueue of a slot; `eagain` a
DQBUF that reported EAGAIN. -/
inductive Event where
  | dequeue (fd : Int) (idx used : Nat)
  | callback (fd : Int) (args : List Int)
  | requeue (fd : Int) (idx : Nat)
  | eagain (fd : Int)
  deriving DecidableEq, Repr

/-- Errors thrown by subdevice::poll, named after the failing call. The
assert on buf.index < buffers.size() is modeled as a distinguished
failure. -/
inductive PollErr where
  | selectFail
  | dequeueFail
  | assertFail
  | requeueFail
  deriving DecidableEq, Repr

/-- Outcome of one poll round: the events emitted before returning or
throwing, and the thrown error if any. -/
structure PollOut where
  events : List Event
  error : Option PollErr
  deriving DecidableEq, Repr

/-- The address of buffer slot `idx` of a subdevice
(sub->buffers[buf.index].start). -/
def bufAddr (s : subdevice) (idx : Nat) : Int :=
  ((s.buffers[idx]?).getD ⟨0, 0⟩).start

/-- The per-subdevice loop of subdevice::poll, over the subdevices in list
order. For each ready descriptor: DQBUF; on EAGAIN return from the whole
dispatch (keeping the events so far); on another DQBUF failure throw;
assert the slot index is in range; invoke the callback — the call site
passes only the buffer's start address (the bytesused count is written to
stdout, a debug print elided here, but not passed); then QBUF the same
slot back (throw on failure). -/
def pollList (K : KernelModel) : List subdevice → PollOut
  | [] => ⟨[], none⟩
  | s :: rest =>
    if K.ready s.fd then
      match K.dq s.fd with
      | DqResult.eagain => ⟨[Event.eagain s.fd], none⟩
      | DqResult.fail => ⟨[], some PollErr.dequeueFail⟩
      | DqResult.success idx used =>
        if idx < s.buffers.length then
          let head := [Event.dequeue s.fd idx used,
                       Event.callback s.fd [bufAddr s idx],
                       Event.requeue s.fd idx]
          if K.qbuf s.fd idx then
            let out := pollList K rest
            ⟨head ++ out.events, out.error⟩
          else ⟨head, some PollErr.requeueFail⟩
        else ⟨[Event.dequeue s.fd idx used], some PollErr.assertFail⟩
    else pollList K rest

/-- subdevice::poll(subdevices): build the fd set, select with a bounded
10ms timeout; on EINTR return immediately, on another select failure
throw; otherwise dispatch the ready subdevices in order. -/
def poll (K : KernelModel) (subs : List subdevice) : PollOut :=
  match K.select with
  | SelectRes.fail => ⟨[], some PollErr.selectFail⟩
  | SelectRes.eintr => ⟨[], none⟩
  | SelectRes.ok => pollList K subs

/-- The events a subdevice contributes to a dispatch round in which every
ready subdevice dequeues successfully: nothing when its descriptor is not
ready, otherwise the dequeue/callback/requeue triple. -/
def subEvents (K : KernelModel) (s : subdevice) : List Event :=
  if K.ready s.fd then
    match K.dq s.fd with
    | DqResult.success idx used =>
      [Event.dequeue s.fd idx used,
       Event.callback s.fd [bufAddr s idx],
       Event.requeue s.fd idx]
    | _ => []
  else []

/-- Concatenated contributions of a subdevice list (see subEvents). -/
def normalEvents (K : KernelModel) : List subdevice → List Event
  | [] => []
  | s :: rest => subEvents K s ++ normalEvents K rest

/-- A subdevice completes a round normally when, if its descriptor is
ready, its dequeue succeeds with an in-range slot index and its re-enqueue
succeeds. -/
def completes (K : KernelModel) (p : subdevice) : Prop :=
  K.ready p.fd = true →
    ∃ idx used, K.dq p.fd = DqResult.success idx used
      ∧ idx < p.buffers.length ∧ K.qbuf p.fd idx = true

/-- The descriptor an event concerns. -/
def Event.efd : Event → Int
  | Event.dequeue f _ _ => f
  | Event.callback f _ => f
  | Event.requeue f _ => f
  | Event.eagain f => f

/-- The numeric value of a hex digit, or none for a non-digit. Mirrors the
digit classification of the C++ stream hex extractor. -/
def hexDigitVal (c : Char) : Option Nat :=
  if '0' ≤ c ∧ c ≤ '9' then some (c.toNat - '0'.toNat)
  else if 'a' ≤ c ∧ c ≤ 'f' then some (c.toNat - 'a'.toNat + 10)
  else if 'A' ≤ c ∧ c ≤ 'F' then some (c.toNat - 'A'.toNat + 10)
  else none

/-- Whether a character is a hex digit. -/
def isHexDigitChar (c : Char) : Bool :=
  (hexDigitVal c).isSome

/-- Whitespace as skipped by formatted stream extraction (isspace). -/
def isSpaceChar (c : Char) : Bool :=
  c == ' ' || c == '\t' || c == '\n' || c == '\r' || c == '\x0b' || c == '\x0c'

/-- Consume the maximal run of hex digits, accumulating the value; returns
the value and the unconsumed remainder. -/
def hexRun : List Char → Nat → Nat × List Char
  | [], acc => (acc, [])
  | c :: rest, acc =>
    match hexDigitVal c with
    | some v => hexRun rest (16 * acc + v)
    | none => (acc, c :: rest)

/-- Model of `istream >> std::hex >> intvar` (as used on the 4-character
modalias substrings and on the bInterfaceNumber file): skip leading
whitespace, then read the maximal hex-digit run; fail when no digit is
present. (The extractor's optional sign and "0x"-prefix forms never arise
from hex-digit fields and are elided.) -/
def readHex (cs : List Char) : Option Nat :=
  match cs.dropWhile isSpaceChar with
  | [] => none
  | c :: rest =>
    if isHexDigitChar c then some (hexRun (c :: rest) 0).1 else none

/-- The value encoded by a string of hex digits (most significant first). -/
def encodedVal (cs : List Char) : Nat :=
  cs.foldl (fun a c => 16 * a + (hexDigitVal c).getD 0) 0

/-- The parse errors thrown by the subdevice constructor while reading the
device-metadata registry, named after the thrown messages ("Not a usb
format modalias", "Failed to read vendor ID", "Failed to read product ID",
"Failed to read interface number"). -/
inductive ParseErr where
  | notUsb
  | vidFail
  | pidFail
  | miFail
  deriving DecidableEq, Repr

/-- The modalias validation and vid/pid extraction of the subdevice
constructor: reject when the string is shorter than 14 characters, does
not start with "usb:v", or character 9 is not 'p'; then parse characters
5..8 as the hex vendor id and 10..13 as the hex product id. -/
def parseModalias (m : List Char) : Except ParseErr (Nat × Nat) :=
  if m.length < 14 ∨ m.take 5 ≠ "usb:v".toList ∨ m[9]? ≠ some 'p' then
    Except.error ParseErr.notUsb
  else
    match readHex ((m.drop 5).take 4) with
    | none => Except.error ParseErr.vidFail
    | some v =>
      match readHex ((m.drop 10).take 4) with
      | none => Except.error ParseErr.pidFail
      | some p => Except.ok (v, p)

/-- The metadata-parsing step of subdevice construction: the modalias
string yields vid and pid, the bInterfaceNumber file content yields mi
(read with the same hex extraction). Any parse error aborts construction
of the subdevice. (The stat/open/capability checks around it are device
I/O and are out of this parsing model.) -/
def parseSubdevice (m b : List Char) : Except ParseErr (Nat × Nat × Nat) :=
  match parseModalias m with
  | Except.error e => Except.error e
  | Except.ok (v, p) =>
    match readHex b with
    | none => Except.error ParseErr.miFail
    | some mi => Except.ok (v, p, mi)

/-- The streaming-thread state of a device: whether the std::thread object
is joinable (a spawned, unjoined thread) and the stop flag. -/
structure DevThread where
  joinable : Bool
  stop : Bool
  deriving DecidableEq, Repr

/-- Steps taken by stop_streaming, in order. -/
inductive ThreadEvent where
  | setStop
  | join
  | clearStop
  deriving DecidableEq, Repr

/-- stop_streaming(device): when the thread is joinable, set the stop
flag, join the thread (after which it is no longer joinable), and clear
the flag; otherwise do nothing. -/
def stop_streaming (d : DevThread) : DevThread × List ThreadEvent :=
  if d.joinable then
    (⟨false, false⟩, [ThreadEvent.setStop, ThreadEvent.join, ThreadEvent.clearStop])
  else (d, [])

/-- The thread-lifecycle effect of start_streaming(device): assign a fresh
thread to device.thread. Assigning over a still-joinable std::thread calls
std::terminate, modeled as none; otherwise the device holds a running
(joinable) thread and the stop flag is unchanged. The per-subdevice
start_capture calls it also performs are modeled separately by
start_capture. -/
def start_streaming (d : DevThread) : Option DevThread :=
  if d.joinable then none else some ⟨true, d.stop⟩

/-- The error thrown by claim_interface ("libusb_claim_interface(...)
returned ..."). -/
inductive UsbErr where
  | interfaceClaim
  deriving DecidableEq, Repr

/-- claim_interface(device, guid, interface_number): call
libusb_claim_interface (its status is the input); on negative status throw
and leave the recorded claimed-interface list unchanged; otherwise record
the interface number for release at teardown. -/
def claim_interface (claimed : List Int) (interface_number : Int) (status : Int) :
    Option UsbErr × List Int :=
  if status < 0 then (some UsbErr.interfaceClaim, claimed)
  else (none, claimed ++ [interface_number])

/-- A kernel environment in which every call succeeds: the base the
concrete test environments below override. -/
def KOk : KernelModel where
  select := SelectRes.ok
  ready := fun _ => true
  dq := fun _ => DqResult.eagain
  qbuf := fun _ _ => true
  sfmtOk := true
  gparmOk := true
  sparmOk := true
  reqbufs := fun _ => ReqbufsRes.granted 4
  querybuf := fun _ => some 100
  mmapAt := fun i => some (1000 + (i : Int))
  streamonOk := true
  streamoffOk := true
  munmapOk := fun _ => true
  closeOk := true

/-- Environment for the poll tests: descriptor 3 is ready and its dequeue
completes slot 0 with 100 bytes used. -/
def K2 : KernelModel :=
  { KOk with ready := fun f => f == 3, dq := fun _ => DqResult.success 0 100 }

/-- A streaming subdevice on descriptor 3 with one mapped buffer at
address 500. -/
def sub2 : subdevice :=
  { fd := 3, vid := 1, pid := 1, mi := 0, buffers := [⟨500, 640⟩] }

/-- Environment whose buffer-pool release (REQBUFS) fails with a
non-EINVAL error. -/
def K3 : KernelModel :=
  { KOk with reqbufs := fun _ => ReqbufsRes.failOther }

/-- Environment whose STREAMOFF fails (a subdevice that never started). -/
def K3b : KernelModel :=
  { KOk with streamoffOk := false }

/-- A subdevice with one mapped buffer, for the destructor test. -/
def sub3 : subdevice :=
  { fd := 6, vid := 1, pid := 1, mi := 0, buffers := [⟨700, 16⟩] }

/-- Environment granting only one buffer to any REQBUFS request. -/
def K4 : KernelModel :=
  { KOk with reqbufs := fun _ => ReqbufsRes.granted 1 }

/-- Environment in which every descriptor is ready but dequeues report
EAGAIN. -/
def KE : KernelModel :=
  { KOk with dq := fun _ => DqResult.eagain }

/-- Subdevice on descriptor 2 for the EAGAIN tests. -/
def sE : subdevice :=
  { fd := 2, vid := 1, pid := 1, mi := 0, buffers := [⟨300, 8⟩] }

/-- Subdevice on descriptor 4, placed after sE in the poll list. -/
def tE : subdevice :=
  { fd := 4, vid := 1, pid := 1, mi := 1, buffers := [⟨400, 8⟩] }

/-- The example modalias of the spec with a real 4-digit product field. -/
def m0 : List Char := "usb:v8086p0A66d0129".toList

/-- A bInterfaceNumber file content. -/
def b0 : List Char := "00".toList

/-- Claim C5: grouping is deterministic and order-preserving: the tuple
sequence (1,1,0),(1,1,1),(1,2,0),(1,2,1) yields exactly two devices of two
subdevices each, and the duplicate-interface sequence (1,1,0),(1,1,0)
yields two devices of one subdevice each. -/
theorem C5_grouping_examples :
    query_devices [mkSub 1 1 0, mkSub 1 1 1, mkSub 1 2 0, mkSub 1 2 1]
        = [[mkSub 1 1 0, mkSub 1 1 1], [mkSub 1 2 0, mkSub 1 2 1]]
    ∧ query_devices [mkSub 1 1 0, mkSub 1 1 0]
        = [[mkSub 1 1 0], [mkSub 1 1 0]] := by
  exact ⟨rfl, rfl⟩

theorem devOk_singleton (s : subdevice) : devOk [s] := by
  refine ⟨by simp, ?_, ?_⟩
  · intro x hx
    rw [List.mem_singleton] at hx
    subst hx
    exact ⟨rfl, rfl⟩
  · unfold distinct_mi
    exact List.pairwise_singleton _ _

theorem devOk_append (d : List subdevice) (s : subdevice) (hd : devOk d)
    (hv : s.vid = get_vendor_id d) (hp : s.pid = get_product_id d)
    (hm : has_mi d s.mi = false) : devOk (d ++ [s]) := by
  obtain ⟨hne, hids, hmi⟩ := hd
  obtain ⟨a, t, rfl⟩ := List.exists_cons_of_ne_nil hne
  have hvendor : get_vendor_id ((a :: t) ++ [s]) = get_vendor_id (a :: t) := rfl
  have hproduct : get_product_id ((a :: t) ++ [s]) = get_product_id (a :: t) := rfl
  have hmis : ∀ x ∈ a :: t, x.mi ≠ s.mi := by
    intro x hx
    have := List.any_eq_false.mp hm x hx
    simpa using this
  refine ⟨by simp, ?_, ?_⟩
  · intro x hx
    rw [hvendor, hproduct]
    rcases List.mem_append.mp hx with h1 | h2
    · exact hids x h1
    · rw [List.mem_singleton] at h2
      subst h2
      exact ⟨hv, hp⟩
  · unfold distinct_mi
    refine List.pairwise_append.mpr ⟨hmi, List.pairwise_singleton _ _, ?_⟩
    intro x hx y hy
    rw [List.mem_singleton] at hy
    subst hy
    exact hmis x hx

theorem group_step_ok (acc : List (List subdevice)) (sub : subdevice)
    (h : ∀ d ∈ acc, devOk d) : ∀ d ∈ group_step acc sub, devOk d := by
  intro d hd
  unfold group_step at hd
  split at hd
  · rcases List.mem_append.mp hd with h1 | h2
    · exact h d h1
    · rw [List.mem_singleton] at h2
      subst h2
      exact devOk_singleton sub
  · next hcond =>
    simp only [Bool.or_eq_true, not_or] at hcond
    obtain ⟨⟨⟨hne, hvid⟩, hpid⟩, hmi⟩ := hcond
    have hne' : acc ≠ [] := by
      intro hnil
      subst hnil
      exact hne rfl
    obtain ⟨init, b, rfl⟩ := (List.eq_nil_or_concat acc).resolve_left hne'
    simp only [List.concat_eq_append] at h hd hne hvid hpid hmi
    rw [List.getLastD_concat] at hvid hpid hmi hd
    rw [List.dropLast_concat] at hd
    rcases List.mem_append.mp hd with h1 | h2
    · exact h d (List.mem_append.mpr (Or.inl h1))
    · rw [List.mem_singleton] at h2
      subst h2
      have hb : devOk b := h b (List.mem_append.mpr (Or.inr (List.mem_singleton.mpr rfl)))
      refine devOk_append b sub hb ?_ ?_ ?_
      · have := (not_congr bne_iff_ne).mp hvid
        simpa using this
      · have := (not_congr bne_iff_ne).mp hpid
        simpa using this
      · exact Bool.not_eq_true _ ▸ (Bool.eq_false_iff.mpr hmi)

theorem query_devices_aux (subs : List subdevice) :
    ∀ acc, (∀ d ∈ acc, devOk d) → ∀ d ∈ subs.foldl group_step acc, devOk d := by
  induction subs with
  | nil => intro acc h d hd; exact h d hd
  | cons s rest ih =>
    intro acc h d hd
    exact ih (group_step acc s) (group_step_ok acc s h) d hd

/-- Claim C1: every device produced by the grouping stage of query_devices
contains at least one subdevice, all of its subdevices share the device's
vendor id and product id, and no two of its subdevices share a USB
interface index. -/
theorem C1_query_devices_invariant (subs : List subdevice) (d : List subdevice)
    (hd : d ∈ query_devices subs) : devOk d :=
  query_devices_aux subs [] (by intro x hx; simp at hx) d hd

theorem C1_witness :
    [mkSub 1 1 0] ∈ query_devices [mkSub 1 1 0] ∧ devOk [mkSub 1 1 0] :=
  ⟨by decide, C1_query_devices_invariant [mkSub 1 1 0] [mkSub 1 1 0] (by decide)⟩

/-- Claim C10: claim_interface is atomic on error: a negative
libusb_claim_interface status raises InterfaceClaimError and leaves the
recorded claimed-interface list unchanged; the interface number is
recorded only after a successful (nonnegative-status) claim. -/
theorem C10_claim_interface (claimed : List Int) (n status : Int) :
    (status < 0 → claim_interface claimed n status = (some UsbErr.interfaceClaim, claimed))
    ∧ (0 ≤ status → claim_interface claimed n status = (none, claimed ++ [n])) := by
  constructor
  · intro h
    simp [claim_interface, h]
  · intro h
    simp [claim_interface, not_lt.mpr h]

theorem C10_witness :
    claim_interface [0] 1 (-3) = (some UsbErr.interfaceClaim, [0])
    ∧ claim_interface [0] 1 0 = (none, [0, 1]) :=
  ⟨(C10_claim_interface [0] 1 (-3)).1 (by decide),
   (C10_claim_interface [0] 1 0).2 (by decide)⟩

/-- Claim C8: stop_streaming on a joinable thread sets the stop flag,
joins the thread, and clears the flag; when no thread is running it is a
no-op; in either case the thread is not running afterwards and
start_streaming may be called again. -/
theorem C8_stop_streaming (d : DevThread) :
    (stop_streaming d).1.joinable = false
    ∧ (d.joinable = true →
        stop_streaming d
          = (⟨false, false⟩, [ThreadEvent.setStop, ThreadEvent.join, ThreadEvent.clearStop]))
    ∧ (d.joinable = false → stop_streaming d = (d, []))
    ∧ (start_streaming (stop_streaming d).1).isSome = true := by
  by_cases h : d.joinable = true
  · simp [stop_streaming, start_streaming, h]
  · rw [Bool.not_eq_true] at h
    simp [stop_streaming, start_streaming, h]

theorem C8_witness :
    stop_streaming ⟨true, false⟩
      = (⟨false, false⟩, [ThreadEvent.setStop, ThreadEvent.join, ThreadEvent.clearStop])
    ∧ stop_streaming ⟨false, false⟩ = (⟨false, false⟩, []) :=
  ⟨(C8_stop_streaming ⟨true, false⟩).2.1 rfl,
   (C8_stop_streaming ⟨false, false⟩).2.2.1 rfl⟩

/-- Claim C4: when format and frame-interval negotiation succeed and the
kernel answers the 4-buffer pool request with fewer than 2 granted
buffers, start_capture fails with InsufficientBuffersError and leaves the
buffer pool exactly as it was — in particular no mapped buffers when it
was empty. -/
theorem C4_insufficient_buffers (K : KernelModel) (s : subdevice) (n : Nat)
    (h1 : K.sfmtOk = true) (h2 : K.gparmOk = true) (h3 : K.sparmOk = true)
    (h4 : K.reqbufs 4 = ReqbufsRes.granted n) (h5 : n < 2) :
    start_capture K s = (s, some CapErr.insufficientBuffers)
    ∧ (start_capture K s).1.buffers = s.buffers := by
  have heq : start_capture K s = (s, some CapErr.insufficientBuffers) := by
    unfold start_capture
    rw [h1, h2, h3, h4]
    simp [h5]
  exact ⟨heq, by rw [heq]⟩

theorem C4_witness :
    start_capture K4 (mkSub 1 1 0) = (mkSub 1 1 0, some CapErr.insufficientBuffers)
    ∧ (mkSub 1 1 0).buffers = [] :=
  ⟨(C4_insufficient_buffers K4 (mkSub 1 1 0) 1 rfl rfl rfl rfl (by decide)).1, rfl⟩

theorem closed_not_mem_munmapEvents (K : KernelModel) (n : Nat) :
    DtorEvent.closed ∉ munmapEvents K n := by
  unfold munmapEvents
  intro hmem
  rcases List.mem_filterMap.mp hmem with ⟨a, _, ha⟩
  by_cases hk : K.munmapOk a <;> simp [hk] at ha

theorem warnMunmap_mem_munmapEvents (K : KernelModel) (n i : Nat) (hi : i < n)
    (hf : K.munmapOk i = false) : DtorEvent.warnMunmap i ∈ munmapEvents K n := by
  unfold munmapEvents
  exact List.mem_filterMap.mpr ⟨i, List.mem_range.mpr hi, by simp [hf]⟩

/-- Claim C3 is false on the code: with an empty buffer pool (no buffers
were ever requested — the subdevice never started), a failing
VIDIOC_REQBUFS(0) release still makes the destructor throw, and the file
descriptor close step is never reached. -/
theorem C3_counterexample :
    (mkSub 1 1 0).buffers = []
    ∧ (destruct K3 (mkSub 1 1 0)).error = some DtorErr.reqbufsOther
    ∧ DtorEvent.closed ∉ (destruct K3 (mkSub 1 1 0)).events := by
  refine ⟨rfl, rfl, ?_⟩
  decide

/-- Claim C3 (amended): stop-streaming failure (including on a
never-started device), per-buffer unmap failures, and close failure are
each logged as warnings; the buffer-pool release step raises on ANY
failure, whether or not buffers had been requested, and destruction
completes (reaching the close) exactly when the release succeeds. -/
theorem C3_destructor_amended (K : KernelModel) (s : subdevice) :
    ((destruct K s).error = none ↔ ∃ n, K.reqbufs 0 = ReqbufsRes.granted n)
    ∧ (K.streamoffOk = false → DtorEvent.warnStreamoff ∈ (destruct K s).events)
    ∧ (∀ i, i < s.buffers.length → K.munmapOk i = false →
        DtorEvent.warnMunmap i ∈ (destruct K s).events)
    ∧ ((∃ n, K.reqbufs 0 = ReqbufsRes.granted n) →
        DtorEvent.closed ∈ (destruct K s).events
        ∧ (K.closeOk = false → DtorEvent.warnClose ∈ (destruct K s).events))
    ∧ ((destruct K s).error ≠ none → DtorEvent.closed ∉ (destruct K s).events) := by
  unfold destruct
  rcases hr : K.reqbufs 0 with n | _ | _
  · refine ⟨by simp, ?_, ?_, ?_, by simp⟩
    · intro hso
      simp [hso]
    · intro i hi hf
      simp only [List.mem_append]
      exact Or.inl (Or.inl (Or.inr (warnMunmap_mem_munmapEvents K _ i hi hf)))
    · intro _
      constructor
      · simp
      · intro hc
        simp [hc]
  · refine ⟨by simp [hr], ?_, ?_, ?_, ?_⟩
    · intro hso
      simp [hso]
    · intro i hi hf
      simp only [List.mem_append]
      exact Or.inr (warnMunmap_mem_munmapEvents K _ i hi hf)
    · intro hgr
      rcases hgr with ⟨n, hn⟩
      simp at hn
    · intro _
      simp only [List.mem_append]
      intro hmem
      rcases hmem with hmem | hmem
      · by_cases hso : K.streamoffOk <;> simp [hso] at hmem
      · exact closed_not_mem_munmapEvents K _ hmem
  · refine ⟨by simp [hr], ?_, ?_, ?_, ?_⟩
    · intro hso
      simp [hso]
    · intro i hi hf
      simp only [List.mem_append]
      exact Or.inr (warnMunmap_mem_munmapEvents K _ i hi hf)
    · intro hgr
      rcases hgr with ⟨n, hn⟩
      simp at hn
    · intro _
      simp only [List.mem_append]
      intro hmem
      rcases hmem with hmem | hmem
      · by_cases hso : K.streamoffOk <;> simp [hso] at hmem
      · exact closed_not_mem_munmapEvents K _ hmem

theorem C3_witness :
    (destruct K3b sub3).error = none
    ∧ DtorEvent.warnStreamoff ∈ (destruct K3b sub3).events
    ∧ DtorEvent.closed ∈ (destruct K3b sub3).events :=
  ⟨((C3_destructor_amended K3b sub3).1).mpr ⟨4, rfl⟩,
   (C3_destructor_amended K3b sub3).2.1 rfl,
   ((C3_destructor_amended K3b sub3).2.2.2.1 ⟨4, rfl⟩).1⟩

theorem hex_not_space (c : Char) (h : isHexDigitChar c = true) : isSpaceChar c = false := by
  cases hsp : isSpaceChar c
  · rfl
  · exfalso
    unfold isSpaceChar at hsp
    simp only [Bool.or_eq_true, beq_iff_eq, or_assoc] at hsp
    rcases hsp with rfl | rfl | rfl | rfl | rfl | rfl <;> exact absurd h (by decide)

theorem hexRun_all_hex (cs : List Char) (acc : Nat)
    (h : ∀ c ∈ cs, isHexDigitChar c = true) :
    hexRun cs acc = (cs.foldl (fun a c => 16 * a + (hexDigitVal c).getD 0) acc, []) := by
  induction cs generalizing acc with
  | nil => rfl
  | cons c rest ih =>
    have hc := h c (List.mem_cons_self c rest)
    unfold isHexDigitChar at hc
    rcases hv : hexDigitVal c with _ | v
    · rw [hv] at hc
      simp at hc
    · simp only [hexRun, hv]
      rw [ih _ (fun x hx => h x (List.mem_cons_of_mem c hx))]
      simp [hv]

theorem readHex_all_hex (cs : List Char) (hne : cs ≠ [])
    (h : ∀ c ∈ cs, isHexDigitChar c = true) : readHex cs = some (encodedVal cs) := by
  rcases cs with _ | ⟨c, rest⟩
  · exact absurd rfl hne
  · have hc := h c (List.mem_cons_self c rest)
    have hdrop : List.dropWhile isSpaceChar (c :: rest) = c :: rest := by
      rw [List.dropWhile_cons]
      rw [hex_not_space c hc]
      simp
    unfold readHex
    rw [hdrop]
    simp [hc, hexRun_all_hex (c :: rest) 0 h, encodedVal]

/-- Claim C6 is false on its concrete example: the metadata string
"usb:v8086pA66Dxxxx" satisfies the format checks and parses to vendor
0x8086 and product 0xA66D — the four characters 10..13 are "A66D" — not
product 0xA66 as the claim states. -/
theorem C6_counterexample :
    parseModalias "usb:v8086pA66Dxxxx".toList = Except.ok (0x8086, 0xA66D)
    ∧ (0xA66D : Nat) ≠ 0xA66 := by
  exact ⟨rfl, by decide⟩

/-- Claim C6 (amended): every well-formed metadata string (length at
least 14, "usb:v" at the front, 'p' at index 9, hex digits in the two
4-character id fields) parses vendor id, product id, and interface index
to the exact hex values encoded — so "usb:v8086pA66Dxxxx" yields vendor
0x8086 and product 0xA66D — and every string with a wrong prefix or
length is rejected with a parse error that aborts construction of that
subdevice. -/
theorem C6_parse_amended (m b : List Char) :
    (14 ≤ m.length → m.take 5 = "usb:v".toList → m[9]? = some 'p' →
     (∀ c ∈ (m.drop 5).take 4, isHexDigitChar c = true) →
     (∀ c ∈ (m.drop 10).take 4, isHexDigitChar c = true) →
     (∀ c ∈ b, isHexDigitChar c = true) → b ≠ [] →
     parseSubdevice m b
       = Except.ok (encodedVal ((m.drop 5).take 4), encodedVal ((m.drop 10).take 4),
           encodedVal b))
    ∧ (m.length < 14 ∨ m.take 5 ≠ "usb:v".toList ∨ m[9]? ≠ some 'p' →
       parseSubdevice m b = Except.error ParseErr.notUsb) := by
  constructor
  · intro hlen htake hp hv hpid hb hbne
    have hvne : (m.drop 5).take 4 ≠ [] := by
      have hl : ((m.drop 5).take 4).length = 4 := by
        rw [List.length_take, List.length_drop]
        omega
      intro hnil
      rw [hnil] at hl
      simp at hl
    have hpne : (m.drop 10).take 4 ≠ [] := by
      have hl : ((m.drop 10).take 4).length = 4 := by
        rw [List.length_take, List.length_drop]
        omega
      intro hnil
      rw [hnil] at hl
      simp at hl
    have hcond : ¬(m.length < 14 ∨ m.take 5 ≠ "usb:v".toList ∨ m[9]? ≠ some 'p') := by
      push_neg
      exact ⟨hlen, htake, hp⟩
    unfold parseSubdevice parseModalias
    rw [if_neg hcond]
    rw [readHex_all_hex _ hvne hv, readHex_all_hex _ hpne hpid, readHex_all_hex b hbne hb]
  · intro h
    unfold parseSubdevice parseModalias
    rw [if_pos h]

theorem C6_witness :
    parseSubdevice m0 b0
      = Except.ok (encodedVal ((m0.drop 5).take 4), encodedVal ((m0.drop 10).take 4),
          encodedVal b0)
    ∧ encodedVal ((m0.drop 10).take 4) = 0xA66 := by
  refine ⟨(C6_parse_amended m0 b0).1 ?_ ?_ ?_ ?_ ?_ ?_ ?_, ?_⟩ <;> decide

theorem efd_of_mem_subEvents (K : KernelModel) (s : subdevice) (e : Event)
    (he : e ∈ subEvents K s) : e.efd = s.fd := by
  unfold subEvents at he
  by_cases hr : K.ready s.fd = true
  · rw [if_pos hr] at he
    rcases hdq : K.dq s.fd with ⟨idx, used⟩ | _ | _ <;> rw [hdq] at he
    · simp only [List.mem_cons, List.not_mem_nil, or_false] at he
      rcases he with rfl | rfl | rfl <;> rfl
    · simp at he
    · simp at he
  · rw [if_neg hr] at he
    simp at he

theorem efd_of_mem_normalEvents (K : KernelModel) (l : List subdevice) (e : Event)
    (he : e ∈ normalEvents K l) : ∃ p ∈ l, e.efd = p.fd := by
  induction l with
  | nil => simp [normalEvents] at he
  | cons s rest ih =>
    unfold normalEvents at he
    rcases List.mem_append.mp he with hm | hm
    · exact ⟨s, List.mem_cons_self s rest, efd_of_mem_subEvents K s e hm⟩
    · rcases ih hm with ⟨p, hp, hefd⟩
      exact ⟨p, List.mem_cons_of_mem s hp, hefd⟩

theorem pollList_append (K : KernelModel) (pre xs : List subdevice)
    (h : ∀ p ∈ pre, completes K p) :
    pollList K (pre ++ xs)
      = ⟨normalEvents K pre ++ (pollList K xs).events, (pollList K xs).error⟩ := by
  induction pre with
  | nil => rfl
  | cons p rest ih =>
    have hp := h p (List.mem_cons_self p rest)
    have hrest : ∀ q ∈ rest, completes K q := fun q hq => h q (List.mem_cons_of_mem p hq)
    by_cases hr : K.ready p.fd = true
    · obtain ⟨idx, used, hdq, hlt, hq⟩ := hp hr
      simp only [List.cons_append]
      simp only [pollList, normalEvents, subEvents, hr, hdq, hlt, hq, if_true, ite_true]
      rw [ih hrest]
      simp [List.append_assoc]
    · simp only [List.cons_append]
      simp only [pollList, normalEvents, subEvents, hr, if_false, ite_false]
      rw [ih hrest]
      simp

theorem poll_eagain_split (K : KernelModel) (pre : List subdevice) (s : subdevice)
    (rest : List subdevice) (hsel : K.select = SelectRes.ok)
    (hpre : ∀ p ∈ pre, completes K p)
    (hready : K.ready s.fd = true) (hdq : K.dq s.fd = DqResult.eagain) :
    poll K (pre ++ s :: rest) = ⟨normalEvents K pre ++ [Event.eagain s.fd], none⟩ := by
  simp only [poll, hsel]
  rw [pollList_append K pre (s :: rest) hpre]
  have hs : pollList K (s :: rest) = ⟨[Event.eagain s.fd], none⟩ := by
    simp [pollList, hready, hdq]
  rw [hs]

theorem pollList_dequeue_shape (K : KernelModel) (subs : List subdevice) :
    ∀ (i : Nat) (f : Int) (idx used : Nat),
      (pollList K subs).error ≠ some PollErr.assertFail →
      (pollList K subs).events[i]? = some (Event.dequeue f idx used) →
      ∃ s ∈ subs, s.fd = f
        ∧ (pollList K subs).events[i + 1]? = some (Event.callback f [bufAddr s idx])
        ∧ (pollList K subs).events[i + 2]? = some (Event.requeue f idx) := by
  induction subs with
  | nil =>
    intro i f idx used herr h
    simp [pollList] at h
  | cons s rest ih =>
    intro i f idx used herr h
    by_cases hr : K.ready s.fd = true
    · rcases hdq : K.dq s.fd with ⟨idx0, used0⟩ | _ | _
      · by_cases hlt : idx0 < s.buffers.length
        · by_cases hq : K.qbuf s.fd idx0 = true
          · have heq : pollList K (s :: rest)
                = ⟨Event.dequeue s.fd idx0 used0 :: Event.callback s.fd [bufAddr s idx0]
                    :: Event.requeue s.fd idx0 :: (pollList K rest).events,
                   (pollList K rest).error⟩ := by
              simp [pollList, hr, hdq, hlt, hq]
            rw [heq] at h herr ⊢
            rcases i with _ | (_ | (_ | n))
            · simp only [List.getElem?_cons_zero, Option.some.injEq, Event.dequeue.injEq] at h
              obtain ⟨hf, hidx, huse⟩ := h
              subst hf
              subst hidx
              refine ⟨s, List.mem_cons_self s rest, rfl, ?_, ?_⟩ <;> simp
            · simp at h
            · simp at h
            · simp only [List.getElem?_cons_succ] at h ⊢
              simp only at herr
              rcases ih n f idx used herr h with ⟨t, ht, hfd, h1, h2⟩
              exact ⟨t, List.mem_cons_of_mem s ht, hfd, h1, h2⟩
          · have heq : pollList K (s :: rest)
                = ⟨[Event.dequeue s.fd idx0 used0, Event.callback s.fd [bufAddr s idx0],
                    Event.requeue s.fd idx0], some PollErr.requeueFail⟩ := by
              simp [pollList, hr, hdq, hlt, hq]
            rw [heq] at h ⊢
            rcases i with _ | (_ | (_ | n))
            · simp only [List.getElem?_cons_zero, Option.some.injEq, Event.dequeue.injEq] at h
              obtain ⟨hf, hidx, huse⟩ := h
              subst hf
              subst hidx
              refine ⟨s, List.mem_cons_self s rest, rfl, ?_, ?_⟩ <;> simp
            · simp at h
            · simp at h
            · simp at h
        · have heq : pollList K (s :: rest)
              = ⟨[Event.dequeue s.fd idx0 used0], some PollErr.assertFail⟩ := by
            simp [pollList, hr, hdq, hlt]
          rw [heq] at herr
          simp at herr
      · have heq : pollList K (s :: rest) = ⟨[Event.eagain s.fd], none⟩ := by
          simp [pollList, hr, hdq]
        rw [heq] at h
        rcases i with _ | n <;> simp at h
      · have heq : pollList K (s :: rest) = ⟨[], some PollErr.dequeueFail⟩ := by
          simp [pollList, hr, hdq]
        rw [heq] at h
        simp at h
    · have heq : pollList K (s :: rest) = pollList K rest := by
        simp [pollList, hr]
      rw [heq] at h herr ⊢
      rcases ih i f idx used herr h with ⟨t, ht, hfd, h1, h2⟩
      exact ⟨t, List.mem_cons_of_mem s ht, hfd, h1, h2⟩

/-- Claim C2 is false on the code: in a round where descriptor 3 is ready
and its dequeue succeeds with slot 0 and 100 bytes used, the dispatcher
invokes the callback with the buffer's address alone — the call site
passes a single argument, sub->buffers[buf.index].start — so no callback
invocation carrying both the address and the used-byte count occurs. -/
theorem C2_counterexample :
    (poll K2 [sub2]).events
      = [Event.dequeue 3 0 100, Event.callback 3 [500], Event.requeue 3 0]
    ∧ Event.callback 3 [500, 100] ∉ (poll K2 [sub2]).events := by
  exact ⟨rfl, by decide⟩

/-- Claim C2 (amended): for every dequeue that succeeds during a dispatch
round (and no out-of-range slot index aborts the round), the dispatcher
synchronously invokes the subdevice's callback with the buffer's address
only — the kernel-reported used-byte count is logged, not passed — and
immediately afterwards re-enqueues the same buffer slot to the kernel. -/
theorem C2_dispatch_amended (K : KernelModel) (subs : List subdevice)
    (i : Nat) (f : Int) (idx used : Nat)
    (herr : (poll K subs).error ≠ some PollErr.assertFail)
    (h : (poll K subs).events[i]? = some (Event.dequeue f idx used)) :
    ∃ s ∈ subs, s.fd = f
      ∧ (poll K subs).events[i + 1]? = some (Event.callback f [bufAddr s idx])
      ∧ (poll K subs).events[i + 2]? = some (Event.requeue f idx) := by
  rcases hsel : K.select with _ | _ | _
  · simp only [poll, hsel] at herr h ⊢
    exact pollList_dequeue_shape K subs i f idx used herr h
  · simp only [poll, hsel] at h
    simp at h
  · simp only [poll, hsel] at h
    simp at h

theorem C2_witness :
    ∃ s ∈ [sub2], s.fd = 3
      ∧ (poll K2 [sub2]).events[1]? = some (Event.callback 3 [bufAddr s 0])
      ∧ (poll K2 [sub2]).events[2]? = some (Event.requeue 3 0) :=
  C2_dispatch_amended K2 [sub2] 0 3 0 100 (by decide) (by decide)

/-- Claim C7: when a dispatch round reaches a ready subdevice whose
dequeue reports EAGAIN (every earlier subdevice in the list having
completed normally, on distinct descriptors), the dispatcher invokes no
callback for that subdevice in that round and raises nothing; being a
stateless procedure, it leaves the subdevice to be retried on a later
round. -/
theorem C7_eagain_no_callback (K : KernelModel) (pre : List subdevice) (s : subdevice)
    (rest : List subdevice) (hsel : K.select = SelectRes.ok)
    (hpre : ∀ p ∈ pre, completes K p)
    (hready : K.ready s.fd = true) (hdq : K.dq s.fd = DqResult.eagain)
    (hfd : ∀ p ∈ pre, s.fd ≠ p.fd) :
    (poll K (pre ++ s :: rest)).error = none
    ∧ ∀ args, Event.callback s.fd args ∉ (poll K (pre ++ s :: rest)).events := by
  rw [poll_eagain_split K pre s rest hsel hpre hready hdq]
  refine ⟨rfl, ?_⟩
  intro args hmem
  rcases List.mem_append.mp hmem with hm | hm
  · rcases efd_of_mem_normalEvents K pre _ hm with ⟨p, hp, hefd⟩
    exact hfd p hp (by simpa [Event.efd] using hefd)
  · simp at hm

theorem C7_witness :
    (poll KE ([] ++ sE :: [])).error = none
    ∧ Event.callback sE.fd [bufAddr sE 0] ∉ (poll KE ([] ++ sE :: [])).events := by
  have h := C7_eagain_no_callback KE [] sE [] rfl (by simp) rfl rfl (by simp)
  exact ⟨h.1, h.2 [bufAddr sE 0]⟩

/-- Claim C9: when the dequeue on a ready subdevice reports EAGAIN, the
dispatcher returns immediately from the whole dispatch: the round's
events are exactly those of the earlier (normally completing) subdevices
followed by the EAGAIN, the result does not depend on the rest of the
list at all, nothing is raised, and no later subdevice is dequeued or has
its callback invoked in that round. -/
theorem C9_eagain_early_return (K : KernelModel) (pre : List subdevice) (s : subdevice)
    (rest : List subdevice) (hsel : K.select = SelectRes.ok)
    (hpre : ∀ p ∈ pre, completes K p)
    (hready : K.ready s.fd = true) (hdq : K.dq s.fd = DqResult.eagain)
    (hfd : ∀ t ∈ rest, ∀ p ∈ pre, t.fd ≠ p.fd) :
    (poll K (pre ++ s :: rest)).events = normalEvents K pre ++ [Event.eagain s.fd]
    ∧ (poll K (pre ++ s :: rest)).error = none
    ∧ ∀ t ∈ rest, (∀ j u, Event.dequeue t.fd j u ∉ (poll K (pre ++ s :: rest)).events)
        ∧ ∀ args, Event.callback t.fd args ∉ (poll K (pre ++ s :: rest)).events := by
  rw [poll_eagain_split K pre s rest hsel hpre hready hdq]
  refine ⟨rfl, rfl, ?_⟩
  intro t ht
  constructor
  · intro j u hmem
    rcases List.mem_append.mp hmem with hm | hm
    · rcases efd_of_mem_normalEvents K pre _ hm with ⟨p, hp, hefd⟩
      exact hfd t ht p hp (by simpa [Event.efd] using hefd)
    · simp at hm
  · intro args hmem
    rcases List.mem_append.mp hmem with hm | hm
    · rcases efd_of_mem_normalEvents K pre _ hm with ⟨p, hp, hefd⟩
      exact hfd t ht p hp (by simpa [Event.efd] using hefd)
    · simp at hm

theorem C9_witness :
    (poll KE ([] ++ sE :: [tE])).events = normalEvents KE [] ++ [Event.eagain sE.fd]
    ∧ (poll KE ([] ++ sE :: [tE])).error = none := by
  have h := C9_eagain_early_return KE [] sE [tE] rfl (by simp) rfl rfl (by simp)
  exact ⟨h.1, h.2.1⟩
